import Mathlib

/-!
# survey/core/template.go

A shallow embedding of `core/template.go`: the icon configuration, the helper
table `TemplateFuncs`, and the memoising template cache (`getTemplate`,
`RunTemplate`).

The Go package keeps its configuration and its cache in package-level
variables.  They are passed explicitly here:

* `Globals` holds `DisableColor` and the seven `Icon` variables;
* `State` holds the map `memoizedGetTemplate` and a ghost counter of the
  calls made to the parser (`template.New("prompt").Funcs(TemplateFuncs).Parse`).

The two libraries the file calls, `text/template` and `github.com/mgutz/ansi`,
are not part of the repository.  They enter as parameters: `Engine.parse`,
`Engine.exec` and `colorCode`.
-/

namespace Core

/-! ## Icons and the helper table -/

/-- The Go struct `Icon`. -/
structure Icon where
  Symbol : String
  Color : String
deriving DecidableEq, Repr

/-- The package-level configuration variables of `template.go`. -/
structure Globals where
  DisableColor : Bool
  HelpInputIcon : Icon
  ErrorIcon : Icon
  HelpIcon : Icon
  QuestionIcon : Icon
  MarkedOptionIcon : Icon
  UnmarkedOptionIcon : Icon
  SelectFocusIcon : Icon
deriving DecidableEq, Repr

/-- The initial values of the package-level variables (lines 11 and 18-39). -/
def initGlobals : Globals where
  DisableColor := false
  HelpInputIcon := { Symbol := "?", Color := "cyan" }
  ErrorIcon := { Symbol := "X", Color := "red" }
  HelpIcon := { Symbol := "????", Color := "cyan" }
  QuestionIcon := { Symbol := "?", Color := "green+hb" }
  MarkedOptionIcon := { Symbol := "[x]", Color := "green" }
  UnmarkedOptionIcon := { Symbol := "[ ]", Color := "default+hb" }
  SelectFocusIcon := { Symbol := ">", Color := "cyan" }

/-- The function `SetFancyIcons`: five assignments to `Symbol` fields, in the
order of the source. -/
def SetFancyIcons (g : Globals) : Globals :=
  let g1 := { g with ErrorIcon := { g.ErrorIcon with Symbol := "✘" } }
  let g2 := { g1 with HelpIcon := { g1.HelpIcon with Symbol := "ⓘ" } }
  let g3 := { g2 with MarkedOptionIcon := { g2.MarkedOptionIcon with Symbol := "◉" } }
  let g4 := { g3 with UnmarkedOptionIcon := { g3.UnmarkedOptionIcon with Symbol := "◯" } }
  { g4 with SelectFocusIcon := { g4.SelectFocusIcon with Symbol := "❯" } }

/-- An entry of `TemplateFuncs`: a Go closure of no argument or of one string
argument, returning a string.  The closures read the package-level variables
when they are called, so they take the current `Globals`. -/
inductive Helper where
  | nullary (f : Globals → String)
  | unary (f : Globals → String → String)

/-- The map `TemplateFuncs` (lines 58-87), as a lookup by helper name.
`colorCode` stands for the library function `ansi.ColorCode`. -/
def TemplateFuncs (colorCode : String → String) (name : String) : Option Helper :=
  if name = "color" then
    some (.unary fun g color => if g.DisableColor then "" else colorCode color)
  else if name = "HelpInputIcon" then
    some (.nullary fun g => g.HelpInputIcon.Symbol)
  else if name = "ErrorIcon" then
    some (.nullary fun g => g.ErrorIcon.Symbol)
  else if name = "HelpIcon" then
    some (.nullary fun g => g.HelpIcon.Symbol)
  else if name = "QuestionIcon" then
    some (.nullary fun g => g.QuestionIcon.Symbol)
  else if name = "MarkedOptionIcon" then
    some (.nullary fun g => g.MarkedOptionIcon.Symbol)
  else if name = "UnmarkedOptionIcon" then
    some (.nullary fun g => g.UnmarkedOptionIcon.Symbol)
  else if name = "SelectFocusIcon" then
    some (.nullary fun g => g.SelectFocusIcon.Symbol)
  else
    none

/-- Calling the helper registered under `name` with the string arguments
`args`.  The result is `none` when no helper has that name or the number of
arguments does not fit the closure; a closure itself always returns a string
(its Go type has no error result). -/
def callHelper (colorCode : String → String) (g : Globals) (name : String)
    (args : List String) : Option String :=
  match TemplateFuncs colorCode name, args with
  | some (.nullary f), [] => some (f g)
  | some (.unary f), [a] => some (f g a)
  | _, _ => none

/-! ## The template cache -/

/-- A `*template.Template`.  `id` is the identity of the allocated object: the
parser returns a fresh object on every call, numbered by the ghost counter
`State.parseCalls`.  `body` is the parsed template. -/
structure Template (Body : Type) where
  id : Nat
  body : Body
deriving DecidableEq, Repr

/-- The part of `text/template` the file uses.
`parse tmpl` is `template.New("prompt").Funcs(TemplateFuncs).Parse(tmpl)`.
`exec g body data` is `t.Execute(buf, data)` on an empty buffer, with the
package variables at `g`: the text written to the buffer and the error, if
any (text may have been written before an error occurs). -/
structure Engine (Body Data Err : Type) where
  parse : String → Except Err Body
  exec : Globals → Body → Data → String × Option Err

/-- The mutable state of the cache: the map `memoizedGetTemplate` and the
ghost counter of parser calls.  The mutex `memoMutex` has no content of its
own; it makes the locked sections atomic (see `stepThread`). -/
structure State (Body : Type) where
  memoizedGetTemplate : String → Option (Template Body)
  parseCalls : Nat

/-- The state at program start: `map[string]*template.Template{}`. -/
def emptyState {Body : Type} : State Body :=
  { memoizedGetTemplate := fun _ => none, parseCalls := 0 }

variable {Body Data Err : Type}

/-- The function `getTemplate` (lines 95-112), run without interference:
the result and the state after the call. -/
def getTemplate (E : Engine Body Data Err) (σ : State Body) (tmpl : String) :
    Except Err (Template Body) × State Body :=
  match σ.memoizedGetTemplate tmpl with
  | some t => (.ok t, σ)
  | none =>
    match E.parse tmpl with
    | .error err => (.error err, { σ with parseCalls := σ.parseCalls + 1 })
    | .ok b =>
      let t : Template Body := { id := σ.parseCalls, body := b }
      (.ok t,
        { memoizedGetTemplate := Function.update σ.memoizedGetTemplate tmpl (some t),
          parseCalls := σ.parseCalls + 1 })

/-- The function `RunTemplate` (lines 114-125): the returned pair
`(string, error)` and the state after the call. -/
def RunTemplate (E : Engine Body Data Err) (g : Globals) (σ : State Body)
    (tmpl : String) (data : Data) : (String × Option Err) × State Body :=
  match getTemplate E σ tmpl with
  | (.error err, σ1) => (("", some err), σ1)
  | (.ok t, σ1) =>
    match E.exec g t.body data with
    | (_, some err) => (("", some err), σ1)
    | (buf, none) => ((buf, none), σ1)

/-- A call made by a client of the cache. -/
inductive Call (Data : Type) where
  | get (tmpl : String)
  | run (tmpl : String) (data : Data)

/-- The state after one call. -/
def applyCall (E : Engine Body Data Err) (g : Globals) (σ : State Body) :
    Call Data → State Body
  | .get tmpl => (getTemplate E σ tmpl).2
  | .run tmpl data => (RunTemplate E g σ tmpl data).2

/-- The state after a sequence of calls, made one after the other. -/
def runCalls (E : Engine Body Data Err) (g : Globals) (σ : State Body)
    (cs : List (Call Data)) : State Body :=
  cs.foldl (applyCall E g) σ

/-- A small concrete engine, for evaluating the definitions: it rejects the
source `"\x7b\x7b"` (two opening braces), and executing `".Missing"` writes
some text and then fails. -/
def demoEngine : Engine String String String where
  parse := fun tmpl => if tmpl = "\x7b\x7b" then .error "unclosed action" else .ok tmpl
  exec := fun _ body data =>
    if body = ".Missing" then ("partial", some "no such field")
    else (body ++ data, none)

/-! ## Concurrent callers

`RunTemplate` may be called from several goroutines.  The accesses to the map
are the two sections guarded by `memoMutex`; a writer excludes every other
section, so each guarded section is one atomic step.  Between them a caller
parses (line 103) and, at the end, executes (lines 119-124) without holding
the lock.  A caller therefore advances through the program points below, and
a run of several callers is an interleaving of their steps. -/

/-- The program point of one caller of `RunTemplate`. -/
inductive Thread (Body Err : Type) where
  /-- Before line 96. -/
  | start
  /-- After lines 96-101 found no entry: about to parse at line 103. -/
  | missed
  /-- After line 103 succeeded with `t`: about to store it at lines 108-110. -/
  | parsed (t : Template Body)
  /-- The call to `getTemplate` returned `t`: about to execute at lines 119-120. -/
  | fetched (t : Template Body)
  /-- Returned `(out, err)`; `used` is the template that was executed, if any. -/
  | done (used : Option (Template Body)) (out : String) (err : Option Err)
deriving DecidableEq, Repr

/-- One atomic step of a caller of `RunTemplate(tmpl, data)`. -/
def stepThread (E : Engine Body Data Err) (g : Globals) (σ : State Body)
    (tmpl : String) (data : Data) : Thread Body Err → Thread Body Err × State Body
  | .start =>
    match σ.memoizedGetTemplate tmpl with
    | some t => (.fetched t, σ)
    | none => (.missed, σ)
  | .missed =>
    match E.parse tmpl with
    | .error err => (.done none "" (some err), { σ with parseCalls := σ.parseCalls + 1 })
    | .ok b => (.parsed { id := σ.parseCalls, body := b },
        { σ with parseCalls := σ.parseCalls + 1 })
  | .parsed t =>
    (.fetched t,
      { σ with memoizedGetTemplate := Function.update σ.memoizedGetTemplate tmpl (some t) })
  | .fetched t =>
    match E.exec g t.body data with
    | (_, some err) => (.done (some t) "" (some err), σ)
    | (buf, none) => (.done (some t) buf none, σ)
  | .done used out err => (.done used out err, σ)

/-- The shared state and the callers: each caller has its arguments and its
program point. -/
structure Config (Body Data Err : Type) where
  state : State Body
  threads : List ((String × Data) × Thread Body Err)

/-- The scheduler lets caller number `i` take its next step. -/
def stepConfig (E : Engine Body Data Err) (g : Globals) (c : Config Body Data Err)
    (i : Nat) : Config Body Data Err :=
  match c.threads.get? i with
  | none => c
  | some (args, th) =>
    let r := stepThread E g c.state args.1 args.2 th
    { state := r.2, threads := c.threads.set i (args, r.1) }

/-- An interleaving: the callers step in the order the schedule lists them. -/
def runSchedule (E : Engine Body Data Err) (g : Globals) (c : Config Body Data Err)
    (schedule : List Nat) : Config Body Data Err :=
  schedule.foldl (stepConfig E g) c

/-- Callers of `RunTemplate` with the same source `tmpl`, one for each element
of `datas`, none of which has started. -/
def spawn (σ : State Body) (tmpl : String) (datas : List Data) : Config Body Data Err :=
  { state := σ, threads := datas.map fun d => ((tmpl, d), Thread.start) }

/-- Whether a caller has returned. -/
def Thread.isDone : Thread Body Err → Bool
  | .done _ _ _ => true
  | _ => false

/-- What `RunTemplate` makes of the outcome of `Execute` (lines 121-124). -/
def execResult (r : String × Option Err) : String × Option Err :=
  match r with
  | (_, some err) => ("", some err)
  | (buf, none) => (buf, none)

/-- The uncached pipeline: parse the source with the helper table, execute the
result on the data, and return as `RunTemplate` does. -/
def renderUncached (E : Engine Body Data Err) (g : Globals) (tmpl : String) (data : Data) :
    String × Option Err :=
  match E.parse tmpl with
  | .error err => ("", some err)
  | .ok b => execResult (E.exec g b data)

/-! ## Invariants -/

/-- Each entry is the compile result of its own key, was allocated by an
earlier parser call, and shares its identity with no entry of another key. -/
structure Coherent (E : Engine Body Data Err) (σ : State Body) : Prop where
  compiled : ∀ k t, σ.memoizedGetTemplate k = some t → E.parse k = .ok t.body
  allocated : ∀ k t, σ.memoizedGetTemplate k = some t → t.id < σ.parseCalls
  distinct : ∀ k k2 t t2, σ.memoizedGetTemplate k = some t →
    σ.memoizedGetTemplate k2 = some t2 → t.id = t2.id → k = k2

/-- Each entry of the map is the compile result of its own key. -/
def EntriesCompiled (E : Engine Body Data Err) (σ : State Body) : Prop :=
  ∀ k t, σ.memoizedGetTemplate k = some t → E.parse k = .ok t.body

/-- A caller that has not yet been through line 103: it may still parse. -/
def Thread.pending : Thread Body Err → Nat
  | .start => 1
  | .missed => 1
  | _ => 0

/-- A caller whose call to `getTemplate` has not yet returned a template. -/
def Thread.waiting : Thread Body Err → Bool
  | .start => true
  | .missed => true
  | .parsed _ => true
  | _ => false

/-- What holds of a caller of `RunTemplate(tmpl, data)` at each program point,
when the parser maps `tmpl` to `b`: the template it holds has body `b`, and
when it has returned it executed such a template and returned what the
uncached pipeline returns. -/
def ThreadOk (E : Engine Body Data Err) (g : Globals) (b : Body) (data : Data) :
    Thread Body Err → Prop
  | .start => True
  | .missed => True
  | .parsed t => t.body = b
  | .fetched t => t.body = b
  | .done used out err =>
    (∃ t, used = some t ∧ t.body = b) ∧ (out, err) = execResult (E.exec g b data)

/-- The invariant of an interleaving of callers that all render the source
`tmpl`, which the parser maps to `b`, started at parser count `p0` with `K`
callers. -/
structure Inv (E : Engine Body Data Err) (g : Globals) (tmpl : String) (b : Body)
    (p0 K : Nat) (args : List (String × Data)) (c : Config Body Data Err) : Prop where
  args_eq : c.threads.map Prod.fst = args
  source : ∀ x ∈ c.threads, x.1.1 = tmpl
  ok : ∀ x ∈ c.threads, ThreadOk E g b x.1.2 x.2
  entry : ∀ t, c.state.memoizedGetTemplate tmpl = some t → t.body = b
  budget : c.state.parseCalls + (c.threads.map fun x => x.2.pending).sum ≤ p0 + K
  mono : p0 ≤ c.state.parseCalls
  progress : (c.state.memoizedGetTemplate tmpl = none ∧ ∀ x ∈ c.threads, x.2.pending = 1) ∨
    p0 + 1 ≤ c.state.parseCalls
  stored : (∀ x ∈ c.threads, x.2.waiting = true) ∨
    ∃ t, c.state.memoizedGetTemplate tmpl = some t

/-- A caller that sits between its lookup, which found no entry, and its call
of the parser. -/
def Thread.atMissed : Thread Body Err → Nat
  | .missed => 1
  | _ => 0

/-- The template a caller holds, if any. -/
def Thread.held : Thread Body Err → Option (Template Body)
  | .parsed t => some t
  | .fetched t => some t
  | .done used _ _ => used
  | _ => none

/-- Whether the next step of a caller is a lookup (lines 96-101) made while
the map has no entry for the source: 1 if so, 0 otherwise.  It is read off the
map and the program point, not off the outcome of the step. -/
def Thread.lookupMisses (σ : State Body) (tmpl : String) : Thread Body Err → Nat
  | .start => if (σ.memoizedGetTemplate tmpl).isNone then 1 else 0
  | _ => 0

/-- Whether step `i` of the scheduler is a lookup made before any template is
stored for the source of caller `i`. -/
def earlyLookup (c : Config Body Data Err) (i : Nat) : Nat :=
  match c.threads.get? i with
  | none => 0
  | some (args, th) => th.lookupMisses c.state args.1

/-- The number of callers that look their source up before any template is
stored for it, along an interleaving. -/
def earlyLookups (E : Engine Body Data Err) (g : Globals) :
    Config Body Data Err → List Nat → Nat
  | _, [] => 0
  | c, i :: rest => earlyLookup c i + earlyLookups E g (stepConfig E g c i) rest

/-- The counting invariant of an interleaving of callers of the source `tmpl`,
started at parser count `p0`, after `n` lookups that found no entry: every
such lookup is followed by exactly one parser call, and every template in
play was allocated by a parser call of this run. -/
structure CountInv (tmpl : String) (p0 n : Nat) (c : Config Body Data Err) : Prop where
  count : c.state.parseCalls + (c.threads.map fun x => x.2.atMissed).sum = p0 + n
  mono : p0 ≤ c.state.parseCalls
  ids : ∀ x ∈ c.threads, ∀ t, x.2.held = some t → p0 ≤ t.id ∧ t.id < c.state.parseCalls
  entryId : ∀ t, c.state.memoizedGetTemplate tmpl = some t →
    p0 ≤ t.id ∧ t.id < c.state.parseCalls

/-! ## Lemmas on `getTemplate` and `RunTemplate` -/

lemma getTemplate_hit (E : Engine Body Data Err) (σ : State Body) (tmpl : String)
    (t : Template Body) (h : σ.memoizedGetTemplate tmpl = some t) :
    getTemplate E σ tmpl = (.ok t, σ) := by
  simp [getTemplate, h]

lemma getTemplate_miss_error (E : Engine Body Data Err) (σ : State Body) (tmpl : String)
    (err : Err) (h : σ.memoizedGetTemplate tmpl = none) (hp : E.parse tmpl = .error err) :
    getTemplate E σ tmpl = (.error err, { σ with parseCalls := σ.parseCalls + 1 }) := by
  simp [getTemplate, h, hp]

lemma getTemplate_miss_ok (E : Engine Body Data Err) (σ : State Body) (tmpl : String)
    (b : Body) (h : σ.memoizedGetTemplate tmpl = none) (hp : E.parse tmpl = .ok b) :
    getTemplate E σ tmpl =
      (.ok { id := σ.parseCalls, body := b },
        { memoizedGetTemplate :=
            Function.update σ.memoizedGetTemplate tmpl (some { id := σ.parseCalls, body := b }),
          parseCalls := σ.parseCalls + 1 }) := by
  simp [getTemplate, h, hp]

/-- The state after `RunTemplate` is the state after its call to `getTemplate`. -/
lemma RunTemplate_state (E : Engine Body Data Err) (g : Globals) (σ : State Body)
    (tmpl : String) (data : Data) :
    (RunTemplate E g σ tmpl data).2 = (getTemplate E σ tmpl).2 := by
  unfold RunTemplate
  split
  · next h => rw [h]
  · next t σ1 h =>
    rw [h]
    split <;> rfl

/-- The pair returned by `RunTemplate`, from the outcome of `getTemplate`. -/
lemma RunTemplate_result (E : Engine Body Data Err) (g : Globals) (σ : State Body)
    (tmpl : String) (data : Data) :
    (RunTemplate E g σ tmpl data).1 =
      match (getTemplate E σ tmpl).1 with
      | .error err => ("", some err)
      | .ok t => execResult (E.exec g t.body data) := by
  unfold RunTemplate
  split
  · next h => rw [h]
  · next t σ1 h =>
    rw [h]
    simp only [execResult]
    split <;> simp_all

/-- A stored entry survives `getTemplate`. -/
lemma getTemplate_keeps (E : Engine Body Data Err) (σ : State Body) (tmpl k : String)
    (t : Template Body) (h : σ.memoizedGetTemplate k = some t) :
    (getTemplate E σ tmpl).2.memoizedGetTemplate k = some t := by
  unfold getTemplate
  split
  · exact h
  · next hmiss =>
    split
    · exact h
    · have hk : k ≠ tmpl := by
        rintro rfl
        rw [hmiss] at h
        cases h
      simp [Function.update_noteq hk, h]

/-- The entry of another source is left alone by `getTemplate`. -/
lemma getTemplate_other (E : Engine Body Data Err) (σ : State Body) (a b : String)
    (hab : a ≠ b) :
    (getTemplate E σ a).2.memoizedGetTemplate b = σ.memoizedGetTemplate b := by
  unfold getTemplate
  split
  · rfl
  · split
    · rfl
    · simp [Function.update_noteq (Ne.symm hab)]

lemma applyCall_keeps (E : Engine Body Data Err) (g : Globals) (σ : State Body)
    (c : Call Data) (k : String) (t : Template Body)
    (h : σ.memoizedGetTemplate k = some t) :
    (applyCall E g σ c).memoizedGetTemplate k = some t := by
  cases c with
  | get tmpl => exact getTemplate_keeps E σ tmpl k t h
  | run tmpl data =>
    simp only [applyCall, RunTemplate_state]
    exact getTemplate_keeps E σ tmpl k t h

lemma runCalls_keeps (E : Engine Body Data Err) (g : Globals) (cs : List (Call Data))
    (σ : State Body) (k : String) (t : Template Body)
    (h : σ.memoizedGetTemplate k = some t) :
    (runCalls E g σ cs).memoizedGetTemplate k = some t := by
  induction cs generalizing σ with
  | nil => exact h
  | cons c cs ih => exact ih (applyCall E g σ c) (applyCall_keeps E g σ c k t h)

lemma runCalls_cons (E : Engine Body Data Err) (g : Globals) (σ : State Body)
    (c : Call Data) (cs : List (Call Data)) :
    runCalls E g σ (c :: cs) = runCalls E g (applyCall E g σ c) cs := rfl

lemma runCalls_append (E : Engine Body Data Err) (g : Globals) (σ : State Body)
    (cs ds : List (Call Data)) :
    runCalls E g σ (cs ++ ds) = runCalls E g (runCalls E g σ cs) ds := by
  simp [runCalls, List.foldl_append]

lemma coherent_empty (E : Engine Body Data Err) : Coherent E (emptyState : State Body) where
  compiled := by intro k t h; simp [emptyState] at h
  allocated := by intro k t h; simp [emptyState] at h
  distinct := by intro k k2 t t2 h; simp [emptyState] at h

lemma getTemplate_coherent (E : Engine Body Data Err) (σ : State Body) (tmpl : String)
    (h : Coherent E σ) : Coherent E (getTemplate E σ tmpl).2 := by
  cases hc : σ.memoizedGetTemplate tmpl with
  | some t => rw [getTemplate_hit E σ tmpl t hc]; exact h
  | none =>
    cases hp : E.parse tmpl with
    | error err =>
      rw [getTemplate_miss_error E σ tmpl err hc hp]
      exact ⟨h.compiled, fun k t hk => Nat.lt_succ_of_lt (h.allocated k t hk), h.distinct⟩
    | ok b =>
      rw [getTemplate_miss_ok E σ tmpl b hc hp]
      refine ⟨?_, ?_, ?_⟩
      · intro k t hk
        by_cases e : k = tmpl
        · subst e
          simp at hk
          subst hk
          exact hp
        · simp [Function.update_noteq e] at hk
          exact h.compiled k t hk
      · intro k t hk
        by_cases e : k = tmpl
        · subst e
          simp at hk
          subst hk
          simp
        · simp [Function.update_noteq e] at hk
          exact Nat.lt_succ_of_lt (h.allocated k t hk)
      · intro k k2 t t2 hk hk2 hid
        by_cases e : k = tmpl <;> by_cases e2 : k2 = tmpl
        · rw [e, e2]
        · subst e
          simp at hk
          simp [Function.update_noteq e2] at hk2
          have := h.allocated k2 t2 hk2
          subst hk
          simp at hid
          omega
        · subst e2
          simp at hk2
          simp [Function.update_noteq e] at hk
          have := h.allocated k t hk
          subst hk2
          simp at hid
          omega
        · simp [Function.update_noteq e] at hk
          simp [Function.update_noteq e2] at hk2
          exact h.distinct k k2 t t2 hk hk2 hid

lemma applyCall_coherent (E : Engine Body Data Err) (g : Globals) (σ : State Body)
    (c : Call Data) (h : Coherent E σ) : Coherent E (applyCall E g σ c) := by
  cases c with
  | get tmpl => exact getTemplate_coherent E σ tmpl h
  | run tmpl data =>
    simp only [applyCall, RunTemplate_state]
    exact getTemplate_coherent E σ tmpl h

lemma runCalls_coherent (E : Engine Body Data Err) (g : Globals) (cs : List (Call Data))
    (σ : State Body) (h : Coherent E σ) : Coherent E (runCalls E g σ cs) := by
  induction cs generalizing σ with
  | nil => exact h
  | cons c cs ih => exact ih (applyCall E g σ c) (applyCall_coherent E g σ c h)

lemma getTemplate_compiled (E : Engine Body Data Err) (σ : State Body) (tmpl : String)
    (h : EntriesCompiled E σ) : EntriesCompiled E (getTemplate E σ tmpl).2 := by
  cases hc : σ.memoizedGetTemplate tmpl with
  | some t => rw [getTemplate_hit E σ tmpl t hc]; exact h
  | none =>
    cases hp : E.parse tmpl with
    | error err => rw [getTemplate_miss_error E σ tmpl err hc hp]; exact h
    | ok b =>
      rw [getTemplate_miss_ok E σ tmpl b hc hp]
      intro k t hk
      by_cases e : k = tmpl
      · subst e
        simp at hk
        subst hk
        exact hp
      · simp [Function.update_noteq e] at hk
        exact h k t hk

lemma runCalls_compiled (E : Engine Body Data Err) (g : Globals) (cs : List (Call Data))
    (σ : State Body) (h : EntriesCompiled E σ) : EntriesCompiled E (runCalls E g σ cs) := by
  induction cs generalizing σ with
  | nil => exact h
  | cons c cs ih =>
    apply ih
    cases c with
    | get tmpl => exact getTemplate_compiled E σ tmpl h
    | run tmpl data =>
      simp only [applyCall, RunTemplate_state]
      exact getTemplate_compiled E σ tmpl h

/-- A successful `getTemplate` leaves its result stored under the source. -/
lemma getTemplate_ok_stored (E : Engine Body Data Err) (σ σ1 : State Body) (tmpl : String)
    (t : Template Body) (h : getTemplate E σ tmpl = (.ok t, σ1)) :
    σ1.memoizedGetTemplate tmpl = some t := by
  cases hc : σ.memoizedGetTemplate tmpl with
  | some t0 =>
    rw [getTemplate_hit E σ tmpl t0 hc] at h
    simp only [Prod.mk.injEq, Except.ok.injEq] at h
    rw [← h.1, ← h.2]
    exact hc
  | none =>
    cases hp : E.parse tmpl with
    | error err =>
      rw [getTemplate_miss_error E σ tmpl err hc hp] at h
      simp at h
    | ok b =>
      rw [getTemplate_miss_ok E σ tmpl b hc hp] at h
      simp only [Prod.mk.injEq, Except.ok.injEq] at h
      rw [← h.1, ← h.2]
      simp

/-- Calls of `RunTemplate` on a cached source leave the state as it is. -/
lemma runCalls_cached (E : Engine Body Data Err) (g : Globals) (σ : State Body)
    (tmpl : String) (t : Template Body) (h : σ.memoizedGetTemplate tmpl = some t)
    (datas : List Data) :
    runCalls E g σ (datas.map (Call.run tmpl)) = σ := by
  induction datas with
  | nil => rfl
  | cons d ds ih =>
    rw [List.map_cons, runCalls_cons]
    have : applyCall E g σ (Call.run tmpl d) = σ := by
      simp only [applyCall, RunTemplate_state, getTemplate_hit E σ tmpl t h]
    rw [this]
    exact ih

/-- A source the parser rejects never gets an entry. -/
lemma runCalls_rejected (E : Engine Body Data Err) (g : Globals) (cs : List (Call Data))
    (σ : State Body) (s : String) (err : Err) (hp : E.parse s = .error err)
    (h : σ.memoizedGetTemplate s = none) :
    (runCalls E g σ cs).memoizedGetTemplate s = none := by
  have key : ∀ (ρ : State Body) (tmpl : String), ρ.memoizedGetTemplate s = none →
      (getTemplate E ρ tmpl).2.memoizedGetTemplate s = none := by
    intro ρ tmpl hρ
    by_cases e : tmpl = s
    · subst e
      rw [getTemplate_miss_error E ρ tmpl err hρ hp]
      exact hρ
    · rw [getTemplate_other E ρ tmpl s e]
      exact hρ
  induction cs generalizing σ with
  | nil => exact h
  | cons c cs ih =>
    apply ih
    cases c with
    | get tmpl => exact key σ tmpl h
    | run tmpl data =>
      simp only [applyCall, RunTemplate_state]
      exact key σ tmpl h

/-- On a map whose entries are compile results, `RunTemplate` returns what the
uncached pipeline returns. -/
lemma RunTemplate_eq_uncached (E : Engine Body Data Err) (g : Globals) (σ : State Body)
    (tmpl : String) (data : Data) (h : EntriesCompiled E σ) :
    (RunTemplate E g σ tmpl data).1 = renderUncached E g tmpl data := by
  rw [RunTemplate_result]
  cases hc : σ.memoizedGetTemplate tmpl with
  | some t =>
    rw [getTemplate_hit E σ tmpl t hc]
    simp [renderUncached, h tmpl t hc]
  | none =>
    cases hp : E.parse tmpl with
    | error err =>
      rw [getTemplate_miss_error E σ tmpl err hc hp]
      simp [renderUncached, hp]
    | ok b =>
      rw [getTemplate_miss_ok E σ tmpl b hc hp]
      simp [renderUncached, hp]

lemma execResult_error_iff (r : String × Option Err) :
    (execResult r).2 ≠ none ↔ r.2 ≠ none := by
  rcases r with ⟨out, _ | e⟩ <;> simp [execResult]

/-! ## The claims on the sequential cache -/

/-- C1: once `getTemplate s` has succeeded with `t`, every later
`getTemplate s`, whatever calls were made in between, returns that same `t`
with no error and leaves the state, parser counter included, as it is.  And
one or more `RunTemplate` calls in a row with the same source, started on a
map without an entry for it, call the parser exactly once. -/
theorem getTemplate_memoized (E : Engine Body Data Err) (g : Globals) (σ σ1 : State Body)
    (s : String) (t : Template Body) (h : getTemplate E σ s = (.ok t, σ1))
    (cs : List (Call Data)) (d : Data) (datas : List Data) :
    getTemplate E (runCalls E g σ1 cs) s = (.ok t, runCalls E g σ1 cs) ∧
    (σ.memoizedGetTemplate s = none →
      (runCalls E g σ ((d :: datas).map (Call.run s))).parseCalls = σ.parseCalls + 1) := by
  have hstored := getTemplate_ok_stored E σ σ1 s t h
  refine ⟨getTemplate_hit E _ s t (runCalls_keeps E g cs σ1 s t hstored), ?_⟩
  intro hmiss
  rw [List.map_cons, runCalls_cons]
  have h1 : applyCall E g σ (Call.run s d) = σ1 := by
    simp only [applyCall, RunTemplate_state, h]
  rw [h1, runCalls_cached E g σ1 s t hstored]
  cases hp : E.parse s with
  | error err =>
    rw [getTemplate_miss_error E σ s err hmiss hp] at h
    simp at h
  | ok b =>
    rw [getTemplate_miss_ok E σ s b hmiss hp] at h
    simp only [Prod.mk.injEq] at h
    rw [← h.2]

/-- C2: when the parser rejects `s` and the map has no entry for `s`,
`getTemplate s` returns the error of the parser and no template, leaves the
map as it was, and has called the parser; a later `getTemplate s`, after any
calls in between, calls the parser again and fails with the same error. -/
theorem getTemplate_failure_not_cached (E : Engine Body Data Err) (g : Globals)
    (σ : State Body) (s : String) (err : Err) (hrej : E.parse s = .error err)
    (hmiss : σ.memoizedGetTemplate s = none) (cs : List (Call Data)) :
    (getTemplate E σ s).1 = .error err ∧
    (getTemplate E σ s).2.memoizedGetTemplate = σ.memoizedGetTemplate ∧
    (getTemplate E σ s).2.parseCalls = σ.parseCalls + 1 ∧
    (getTemplate E (runCalls E g (getTemplate E σ s).2 cs) s).1 = .error err ∧
    (getTemplate E (runCalls E g (getTemplate E σ s).2 cs) s).2.memoizedGetTemplate =
      (runCalls E g (getTemplate E σ s).2 cs).memoizedGetTemplate ∧
    (getTemplate E (runCalls E g (getTemplate E σ s).2 cs) s).2.parseCalls =
      (runCalls E g (getTemplate E σ s).2 cs).parseCalls + 1 := by
  have h1 := getTemplate_miss_error E σ s err hmiss hrej
  have hmiss1 : (getTemplate E σ s).2.memoizedGetTemplate s = none := by
    rw [h1]; exact hmiss
  have hmiss2 := runCalls_rejected E g cs (getTemplate E σ s).2 s err hrej hmiss1
  have h2 := getTemplate_miss_error E (runCalls E g (getTemplate E σ s).2 cs) s err hmiss2 hrej
  refine ⟨?_, ?_, ?_, ?_, ?_, ?_⟩
  · rw [h1]
  · rw [h1]
  · rw [h1]
  · rw [h2]
  · rw [h2]
  · rw [h2]

/-- C3: for every state of the map, `RunTemplate` returns an error exactly
when its call to `getTemplate` fails or executing the template that call
returned fails; the error is the one of the failing step and the string is
empty, whatever was written to the buffer; on success the error is nil and the
string is the buffer.  On a map reached from the empty one by calls of the
cache, this is: exactly when parsing the source fails or executing the parsed
template fails. -/
theorem RunTemplate_error_iff (E : Engine Body Data Err) (g : Globals) (σ : State Body)
    (tmpl : String) (data : Data) (cs : List (Call Data)) :
    ((RunTemplate E g σ tmpl data).1.2 ≠ none ↔
      (∃ err, (getTemplate E σ tmpl).1 = .error err) ∨
      (∃ t err, (getTemplate E σ tmpl).1 = .ok t ∧ (E.exec g t.body data).2 = some err)) ∧
    (∀ err, (getTemplate E σ tmpl).1 = .error err →
      (RunTemplate E g σ tmpl data).1 = ("", some err)) ∧
    (∀ t err, (getTemplate E σ tmpl).1 = .ok t → (E.exec g t.body data).2 = some err →
      (RunTemplate E g σ tmpl data).1 = ("", some err)) ∧
    (∀ t, (getTemplate E σ tmpl).1 = .ok t → (E.exec g t.body data).2 = none →
      (RunTemplate E g σ tmpl data).1 = ((E.exec g t.body data).1, none)) ∧
    ((RunTemplate E g (runCalls E g emptyState cs) tmpl data).1.2 ≠ none ↔
      (∃ err, E.parse tmpl = .error err) ∨
      (∃ b err, E.parse tmpl = .ok b ∧ (E.exec g b data).2 = some err)) := by
  refine ⟨?_, ?_, ?_, ?_, ?_⟩
  · rw [RunTemplate_result]
    cases hg : (getTemplate E σ tmpl).1 with
    | error err => simp
    | ok t =>
      simp only [execResult_error_iff, reduceCtorEq, exists_false, false_or,
        Except.ok.injEq, exists_and_left, exists_eq_left']
      exact Option.ne_none_iff_exists'
  · intro err hg
    rw [RunTemplate_result, hg]
  · intro t err hg he
    rw [RunTemplate_result, hg]
    rcases hx : E.exec g t.body data with ⟨out, e⟩
    rw [hx] at he
    simp only at he
    subst he
    simp [execResult, hx]
  · intro t hg he
    rw [RunTemplate_result, hg]
    rcases hx : E.exec g t.body data with ⟨out, e⟩
    rw [hx] at he
    simp only at he
    subst he
    simp [execResult, hx]
  · have hcomp : EntriesCompiled E (runCalls E g (emptyState : State Body) cs) :=
      runCalls_compiled E g cs emptyState (by intro k t hk; simp [emptyState] at hk)
    rw [RunTemplate_eq_uncached E g _ tmpl data hcomp]
    unfold renderUncached
    cases hp : E.parse tmpl with
    | error err => simp
    | ok b =>
      simp only [execResult_error_iff, reduceCtorEq, exists_false, false_or,
        Except.ok.injEq, exists_and_left, exists_eq_left']
      exact Option.ne_none_iff_exists'

/-- C4: on a map in which each entry is the compile result of its own key,
`RunTemplate` returns the same pair as the uncached pipeline (parse with the
helper table, then execute), on a hit as on a miss; so a second call with the
same source, data and helper state, after any calls in between, returns the
same pair as the first. -/
theorem RunTemplate_refines_uncached (E : Engine Body Data Err) (g : Globals)
    (σ : State Body) (tmpl : String) (data : Data) (hσ : EntriesCompiled E σ)
    (cs : List (Call Data)) :
    (RunTemplate E g σ tmpl data).1 = renderUncached E g tmpl data ∧
    (RunTemplate E g (runCalls E g (RunTemplate E g σ tmpl data).2 cs) tmpl data).1 =
      (RunTemplate E g σ tmpl data).1 := by
  have h1 := RunTemplate_eq_uncached E g σ tmpl data hσ
  refine ⟨h1, ?_⟩
  rw [h1]
  apply RunTemplate_eq_uncached
  apply runCalls_compiled
  rw [RunTemplate_state]
  exact getTemplate_compiled E σ tmpl hσ

/-- C5, as the code has it: executing the template adds nothing to the map,
the state after `RunTemplate` is the state after its call to `getTemplate`.
The entries of all other sources are as before; the map is as before when the
source has an entry or the parser rejects it; and on a miss of a source the
parser accepts, the map gains the entry for the source and is no longer equal
to the map before the call. -/
theorem RunTemplate_cache_effect (E : Engine Body Data Err) (g : Globals) (σ : State Body)
    (tmpl : String) (data : Data) :
    (RunTemplate E g σ tmpl data).2 = (getTemplate E σ tmpl).2 ∧
    (∀ k, k ≠ tmpl →
      (RunTemplate E g σ tmpl data).2.memoizedGetTemplate k = σ.memoizedGetTemplate k) ∧
    (∀ t, σ.memoizedGetTemplate tmpl = some t →
      (RunTemplate E g σ tmpl data).2.memoizedGetTemplate = σ.memoizedGetTemplate) ∧
    (∀ err, E.parse tmpl = .error err →
      (RunTemplate E g σ tmpl data).2.memoizedGetTemplate = σ.memoizedGetTemplate) ∧
    (∀ b, σ.memoizedGetTemplate tmpl = none → E.parse tmpl = .ok b →
      (RunTemplate E g σ tmpl data).2.memoizedGetTemplate =
        Function.update σ.memoizedGetTemplate tmpl (some { id := σ.parseCalls, body := b }) ∧
      (RunTemplate E g σ tmpl data).2.memoizedGetTemplate ≠ σ.memoizedGetTemplate) := by
  refine ⟨RunTemplate_state E g σ tmpl data, ?_, ?_, ?_, ?_⟩
  · intro k hk
    rw [RunTemplate_state]
    exact getTemplate_other E σ tmpl k (Ne.symm hk)
  · intro t ht
    rw [RunTemplate_state, getTemplate_hit E σ tmpl t ht]
  · intro err hp
    rw [RunTemplate_state]
    cases hc : σ.memoizedGetTemplate tmpl with
    | some t => rw [getTemplate_hit E σ tmpl t hc]
    | none => rw [getTemplate_miss_error E σ tmpl err hc hp]
  · intro b hc hp
    rw [RunTemplate_state, getTemplate_miss_ok E σ tmpl b hc hp]
    refine ⟨rfl, ?_⟩
    intro heq
    have := congrFun heq tmpl
    simp [hc] at this

/-- C6: entries are never updated or removed.  Once the map sends `s` to `t`
it sends `s` to `t` after every further sequence of calls; and over the life
of the cache, from the empty map on, any two templates seen stored under `s`
are the same one. -/
theorem cache_entries_permanent (E : Engine Body Data Err) (g : Globals) (σ : State Body)
    (s : String) (t : Template Body) (h : σ.memoizedGetTemplate s = some t)
    (cs ds es : List (Call Data)) :
    (runCalls E g σ cs).memoizedGetTemplate s = some t ∧
    (∀ t1 t2, (runCalls E g emptyState ds).memoizedGetTemplate s = some t1 →
      (runCalls E g emptyState (ds ++ es)).memoizedGetTemplate s = some t2 → t1 = t2) := by
  refine ⟨runCalls_keeps E g cs σ s t h, ?_⟩
  intro t1 t2 h1 h2
  rw [runCalls_append, runCalls_keeps E g es _ s t1 h1] at h2
  exact Option.some.inj h2

/-- C7: in every state reached from the empty map by calls of the cache, each
entry is the compile result of exactly its own key; for distinct sources `a`
and `b`, `getTemplate a` leaves the entry of `b` as it is (present or absent),
the entries of `a` and `b` are different template objects, and `getTemplate b`
returns a compile result of `b` that is not the template stored for `a`, also
when both parse to the same body. -/
theorem cache_isolation (E : Engine Body Data Err) (g : Globals) (cs : List (Call Data))
    (a b : String) (hab : a ≠ b) :
    (∀ k t, (runCalls E g emptyState cs).memoizedGetTemplate k = some t →
      E.parse k = .ok t.body) ∧
    (getTemplate E (runCalls E g emptyState cs) a).2.memoizedGetTemplate b =
      (runCalls E g emptyState cs).memoizedGetTemplate b ∧
    (∀ ta tb, (runCalls E g emptyState cs).memoizedGetTemplate a = some ta →
      (runCalls E g emptyState cs).memoizedGetTemplate b = some tb → ta.id ≠ tb.id) ∧
    (∀ ta tb, (runCalls E g emptyState cs).memoizedGetTemplate a = some ta →
      (getTemplate E (runCalls E g emptyState cs) b).1 = .ok tb →
      E.parse b = .ok tb.body ∧ tb.id ≠ ta.id ∧ tb ≠ ta) := by
  have hco : Coherent E (runCalls E g (emptyState : State Body) cs) :=
    runCalls_coherent E g cs emptyState (coherent_empty E)
  refine ⟨hco.compiled, getTemplate_other E _ a b hab, ?_, ?_⟩
  · intro ta tb ha hb hid
    exact hab (hco.distinct a b ta tb ha hb hid)
  · intro ta tb ha hb
    have hco2 := getTemplate_coherent E _ b hco
    have hst : (getTemplate E (runCalls E g emptyState cs) b).2.memoizedGetTemplate b
        = some tb :=
      getTemplate_ok_stored E _ _ b tb (Prod.ext hb rfl)
    have ha2 := getTemplate_keeps E (runCalls E g emptyState cs) b a ta ha
    have hne : tb.id ≠ ta.id := fun hid =>
      hab (hco2.distinct b a tb ta hst ha2 hid).symm
    exact ⟨hco2.compiled b tb hst, hne, fun e => hne (by rw [e])⟩

/-! ## The claims on the helper table -/

/-- C9: called with any color name, the `color` entry of `TemplateFuncs`
returns a string, never an error; the string depends on the color name and on
`DisableColor` only; and it is empty whenever `DisableColor` is set. -/
theorem color_helper_permissive (colorCode : String → String) (g g2 : Globals)
    (color : String) :
    (∃ out, callHelper colorCode g "color" [color] = some out) ∧
    callHelper colorCode g "color" [color] =
      some (if g.DisableColor then "" else colorCode color) ∧
    (g.DisableColor = g2.DisableColor →
      callHelper colorCode g "color" [color] = callHelper colorCode g2 "color" [color]) ∧
    (g.DisableColor = true → callHelper colorCode g "color" [color] = some "") := by
  have h : callHelper colorCode g "color" [color] =
      some (if g.DisableColor then "" else colorCode color) := by
    simp [callHelper, TemplateFuncs]
  have h2 : callHelper colorCode g2 "color" [color] =
      some (if g2.DisableColor then "" else colorCode color) := by
    simp [callHelper, TemplateFuncs]
  refine ⟨⟨_, h⟩, h, ?_, ?_⟩
  · intro e
    rw [h, h2, e]
  · intro e
    rw [h, e]
    rfl

/-- C10: `SetFancyIcons` leaves `QuestionIcon` as it is, symbol and color, and
sets the symbols of `ErrorIcon`, `HelpIcon`, `MarkedOptionIcon` and
`SelectFocusIcon` to their fancy forms; the `QuestionIcon` helper of
`TemplateFuncs` returns the same string before and after. -/
theorem SetFancyIcons_keeps_QuestionIcon (colorCode : String → String) (g : Globals) :
    (SetFancyIcons g).QuestionIcon.Symbol = g.QuestionIcon.Symbol ∧
    (SetFancyIcons g).QuestionIcon.Color = g.QuestionIcon.Color ∧
    (SetFancyIcons g).ErrorIcon.Symbol = "✘" ∧
    (SetFancyIcons g).HelpIcon.Symbol = "ⓘ" ∧
    (SetFancyIcons g).MarkedOptionIcon.Symbol = "◉" ∧
    (SetFancyIcons g).SelectFocusIcon.Symbol = "❯" ∧
    callHelper colorCode (SetFancyIcons g) "QuestionIcon" [] =
      callHelper colorCode g "QuestionIcon" [] ∧
    callHelper colorCode g "QuestionIcon" [] = some g.QuestionIcon.Symbol := by
  refine ⟨rfl, rfl, rfl, rfl, rfl, rfl, ?_, ?_⟩
  · simp [callHelper, TemplateFuncs, SetFancyIcons]
  · simp [callHelper, TemplateFuncs]

/-! ## Concurrent callers: the invariant of an interleaving -/

lemma stepThread_spec (E : Engine Body Data Err) (g : Globals) (tmpl : String) (b : Body)
    (hp : E.parse tmpl = .ok b) (σ : State Body) (data : Data) (th : Thread Body Err)
    (hok : ThreadOk E g b data th)
    (hcb : ∀ t, σ.memoizedGetTemplate tmpl = some t → t.body = b) :
    ThreadOk E g b data (stepThread E g σ tmpl data th).1 ∧
    (∀ t, (stepThread E g σ tmpl data th).2.memoizedGetTemplate tmpl = some t → t.body = b) ∧
    (stepThread E g σ tmpl data th).2.parseCalls + (stepThread E g σ tmpl data th).1.pending
      ≤ σ.parseCalls + th.pending ∧
    σ.parseCalls ≤ (stepThread E g σ tmpl data th).2.parseCalls ∧
    (σ.memoizedGetTemplate tmpl = none → th.pending = 1 →
      ((stepThread E g σ tmpl data th).2.memoizedGetTemplate tmpl = none ∧
        (stepThread E g σ tmpl data th).1.pending = 1) ∨
      σ.parseCalls + 1 ≤ (stepThread E g σ tmpl data th).2.parseCalls) ∧
    (th.waiting = true → (stepThread E g σ tmpl data th).1.waiting = true ∨
      ∃ t, (stepThread E g σ tmpl data th).2.memoizedGetTemplate tmpl = some t) ∧
    ((∃ t, σ.memoizedGetTemplate tmpl = some t) →
      ∃ t, (stepThread E g σ tmpl data th).2.memoizedGetTemplate tmpl = some t) := by
  cases th with
  | start =>
    cases hc : σ.memoizedGetTemplate tmpl with
    | none => simp [stepThread, hc, ThreadOk, Thread.pending, Thread.waiting]
    | some t =>
      have := hcb t hc
      simp [stepThread, hc, ThreadOk, Thread.pending, Thread.waiting, this]
  | missed =>
    simp only [stepThread, hp, ThreadOk, Thread.pending, Thread.waiting]
    refine ⟨trivial, hcb, by omega, by omega, ?_, fun _ => Or.inl trivial, fun h => h⟩
    intro _ _
    exact Or.inr (le_refl _)
  | parsed t =>
    simp only [ThreadOk] at hok
    simp [stepThread, ThreadOk, Thread.pending, Thread.waiting, hok]
  | fetched t =>
    simp only [ThreadOk] at hok
    rcases hx : E.exec g t.body data with ⟨out, _ | e⟩
    · simp only [stepThread, hx, ThreadOk, Thread.pending, Thread.waiting]
      rw [hok] at hx
      exact ⟨⟨⟨t, rfl, hok⟩, by simp [hx, execResult]⟩, hcb, by omega, le_refl _,
        by simp, by simp, fun h => h⟩
    · simp only [stepThread, hx, ThreadOk, Thread.pending, Thread.waiting]
      rw [hok] at hx
      exact ⟨⟨⟨t, rfl, hok⟩, by simp [hx, execResult]⟩, hcb, by omega, le_refl _,
        by simp, by simp, fun h => h⟩
  | done used out err =>
    simp only [stepThread, Thread.pending, Thread.waiting]
    exact ⟨hok, hcb, le_refl _, le_refl _, by simp, by simp, fun h => h⟩

lemma sum_map_set {α : Type} (f : α → Nat) (l : List α) (i : Nat) (x y : α)
    (h : l.get? i = some x) :
    ((l.set i y).map f).sum + f x = (l.map f).sum + f y := by
  induction l generalizing i with
  | nil => simp at h
  | cons a l ih =>
    cases i with
    | zero =>
      simp only [List.get?_cons_zero, Option.some.injEq] at h
      subst h
      simp only [List.set_cons_zero, List.map_cons, List.sum_cons]
      omega
    | succ n =>
      simp only [List.get?_cons_succ] at h
      have := ih n h
      simp only [List.set_cons_succ, List.map_cons, List.sum_cons]
      omega

lemma map_fst_set {α β : Type} (l : List (α × β)) (i : Nat) (a : α) (p q : β)
    (h : l.get? i = some (a, p)) :
    (l.set i (a, q)).map Prod.fst = l.map Prod.fst := by
  induction l generalizing i with
  | nil => simp at h
  | cons x l ih =>
    cases i with
    | zero =>
      simp only [List.get?_cons_zero, Option.some.injEq] at h
      subst h
      simp
    | succ n =>
      simp only [List.get?_cons_succ] at h
      simp [ih n h]

lemma spawn_inv (E : Engine Body Data Err) (g : Globals) (tmpl : String) (b : Body)
    (σ : State Body) (hmiss : σ.memoizedGetTemplate tmpl = none) (datas : List Data) :
    Inv E g tmpl b σ.parseCalls datas.length (datas.map fun d => (tmpl, d))
      (spawn σ tmpl datas : Config Body Data Err) where
  args_eq := by simp [spawn, Function.comp_def]
  source := by
    intro x hx
    simp only [spawn, List.mem_map] at hx
    obtain ⟨d, -, rfl⟩ := hx
    rfl
  ok := by
    intro x hx
    simp only [spawn, List.mem_map] at hx
    obtain ⟨d, -, rfl⟩ := hx
    trivial
  entry := by
    intro t ht
    simp only [spawn] at ht
    rw [hmiss] at ht
    cases ht
  budget := by
    have : ∀ l : List Data,
        ((l.map fun d => (((tmpl, d), Thread.start) : (String × Data) × Thread Body Err)).map
          fun x => x.2.pending).sum = l.length := by
      intro l
      induction l with
      | nil => rfl
      | cons d l ih =>
        rw [List.map_cons, List.map_cons, List.sum_cons, ih, List.length_cons]
        show 1 + l.length = l.length + 1
        omega
    simp only [spawn, this]
    exact le_refl _
  mono := le_refl _
  progress := by
    left
    refine ⟨hmiss, ?_⟩
    intro x hx
    simp only [spawn, List.mem_map] at hx
    obtain ⟨d, -, rfl⟩ := hx
    rfl
  stored := by
    left
    intro x hx
    simp only [spawn, List.mem_map] at hx
    obtain ⟨d, -, rfl⟩ := hx
    rfl

lemma stepConfig_inv (E : Engine Body Data Err) (g : Globals) (tmpl : String) (b : Body)
    (hp : E.parse tmpl = .ok b) (p0 K : Nat) (args : List (String × Data))
    (c : Config Body Data Err) (i : Nat) (h : Inv E g tmpl b p0 K args c) :
    Inv E g tmpl b p0 K args (stepConfig E g c i) := by
  cases hget : c.threads.get? i with
  | none =>
    have : stepConfig E g c i = c := by unfold stepConfig; rw [hget]
    rw [this]
    exact h
  | some x =>
    obtain ⟨⟨src, data⟩, th⟩ := x
    have hmem : ((src, data), th) ∈ c.threads := List.get?_mem hget
    have hsrc : src = tmpl := h.source _ hmem
    subst hsrc
    have hstep : stepConfig E g c i =
        { state := (stepThread E g c.state src data th).2,
          threads := c.threads.set i ((src, data), (stepThread E g c.state src data th).1) } := by
      unfold stepConfig; rw [hget]
    rw [hstep]
    obtain ⟨s1, s2, s3, s4, s5, s6, s7⟩ :=
      stepThread_spec E g src b hp c.state data th (h.ok _ hmem) h.entry
    have hsum := sum_map_set (fun x : (String × Data) × Thread Body Err => x.2.pending)
      c.threads i ((src, data), th) ((src, data), (stepThread E g c.state src data th).1) hget
    have hb := h.budget
    have hm := h.mono
    simp only at hsum
    refine ⟨?_, ?_, ?_, s2, ?_, le_trans hm s4, ?_, ?_⟩
    · simp only
      rw [map_fst_set c.threads i (src, data) th _ hget]
      exact h.args_eq
    · intro x hx
      rcases List.mem_or_eq_of_mem_set hx with hx | rfl
      · exact h.source x hx
      · rfl
    · intro x hx
      rcases List.mem_or_eq_of_mem_set hx with hx | rfl
      · exact h.ok x hx
      · exact s1
    · simp only
      omega
    · rcases h.progress with ⟨hnone, hall⟩ | hge
      · rcases s5 hnone (hall _ hmem) with ⟨hn, hpend⟩ | hge
        · left
          refine ⟨hn, ?_⟩
          intro x hx
          rcases List.mem_or_eq_of_mem_set hx with hx | rfl
          · exact hall x hx
          · exact hpend
        · right
          simp only
          omega
      · right
        simp only
        omega
    · rcases h.stored with hall | hsome
      · rcases s6 (hall _ hmem) with hw | hsome
        · left
          intro x hx
          rcases List.mem_or_eq_of_mem_set hx with hx | rfl
          · exact hall x hx
          · exact hw
        · exact Or.inr hsome
      · exact Or.inr (s7 hsome)

lemma runSchedule_inv (E : Engine Body Data Err) (g : Globals) (tmpl : String) (b : Body)
    (hp : E.parse tmpl = .ok b) (p0 K : Nat) (args : List (String × Data))
    (schedule : List Nat) (c : Config Body Data Err) (h : Inv E g tmpl b p0 K args c) :
    Inv E g tmpl b p0 K args (runSchedule E g c schedule) := by
  induction schedule generalizing c with
  | nil => exact h
  | cons i rest ih => exact ih (stepConfig E g c i) (stepConfig_inv E g tmpl b hp p0 K args c i h)

/-- A caller that runs alone goes through its four steps and ends with the
state and the result of `RunTemplate`: the interleaving model agrees with the
sequential functions. -/
lemma runSchedule_alone (E : Engine Body Data Err) (g : Globals) (σ : State Body)
    (tmpl : String) (data : Data) :
    ∃ used,
      runSchedule E g (spawn σ tmpl [data]) [0, 0, 0, 0] =
        { state := (RunTemplate E g σ tmpl data).2,
          threads := [((tmpl, data), .done used (RunTemplate E g σ tmpl data).1.1
            (RunTemplate E g σ tmpl data).1.2)] } := by
  cases hc : σ.memoizedGetTemplate tmpl with
  | some t =>
    rcases hx : E.exec g t.body data with ⟨out, _ | e⟩ <;>
    · refine ⟨some t, ?_⟩
      simp [runSchedule, stepConfig, spawn, stepThread, hc, hx, RunTemplate, getTemplate]
  | none =>
    cases hp : E.parse tmpl with
    | error err =>
      refine ⟨none, ?_⟩
      simp [runSchedule, stepConfig, spawn, stepThread, hc, hp, RunTemplate, getTemplate]
    | ok b =>
      rcases hx : E.exec g b data with ⟨out, _ | e⟩ <;>
      · refine ⟨some ⟨σ.parseCalls, b⟩, ?_⟩
        simp [runSchedule, stepConfig, spawn, stepThread, hc, hp, hx, RunTemplate, getTemplate]

lemma stepThread_count (E : Engine Body Data Err) (g : Globals) (tmpl : String) (b : Body)
    (hp : E.parse tmpl = .ok b) (σ : State Body) (data : Data) (th : Thread Body Err)
    (p0 : Nat) (hmono : p0 ≤ σ.parseCalls)
    (hid : ∀ t, th.held = some t → p0 ≤ t.id ∧ t.id < σ.parseCalls)
    (hcid : ∀ t, σ.memoizedGetTemplate tmpl = some t → p0 ≤ t.id ∧ t.id < σ.parseCalls) :
    (stepThread E g σ tmpl data th).2.parseCalls + (stepThread E g σ tmpl data th).1.atMissed
      = σ.parseCalls + th.atMissed + th.lookupMisses σ tmpl ∧
    σ.parseCalls ≤ (stepThread E g σ tmpl data th).2.parseCalls ∧
    (∀ t, (stepThread E g σ tmpl data th).1.held = some t →
      p0 ≤ t.id ∧ t.id < (stepThread E g σ tmpl data th).2.parseCalls) ∧
    (∀ t, (stepThread E g σ tmpl data th).2.memoizedGetTemplate tmpl = some t →
      p0 ≤ t.id ∧ t.id < (stepThread E g σ tmpl data th).2.parseCalls) := by
  cases th with
  | start =>
    cases hc : σ.memoizedGetTemplate tmpl with
    | none =>
      simp only [stepThread, hc, Thread.atMissed, Thread.lookupMisses, Thread.held]
      refine ⟨by simp, le_refl _, by simp, ?_⟩
      intro t ht
      cases ht
    | some t0 =>
      simp only [stepThread, hc, Thread.atMissed, Thread.lookupMisses, Thread.held]
      refine ⟨by simp, le_refl _, ?_, ?_⟩
      · intro t ht
        exact hcid t (by rw [hc, ht])
      · intro t ht
        exact hcid t (by rw [hc, ht])
  | missed =>
    simp only [stepThread, hp, Thread.atMissed, Thread.lookupMisses, Thread.held]
    refine ⟨by simp, Nat.le_succ _, ?_, ?_⟩
    · intro t ht
      simp only [Option.some.injEq] at ht
      subst ht
      exact ⟨hmono, Nat.lt_succ_self _⟩
    · intro t ht
      have := hcid t ht
      exact ⟨this.1, Nat.lt_succ_of_lt this.2⟩
  | parsed t0 =>
    simp only [stepThread, Thread.atMissed, Thread.lookupMisses, Thread.held]
    refine ⟨by simp, le_refl _, hid, ?_⟩
    intro t ht
    simp only [Function.update_same, Option.some.injEq] at ht
    exact hid t (by simp [Thread.held, ht])
  | fetched t0 =>
    rcases hx : E.exec g t0.body data with ⟨out, _ | e⟩ <;>
    · simp only [stepThread, hx, Thread.atMissed, Thread.lookupMisses, Thread.held]
      exact ⟨by simp, le_refl _, hid, hcid⟩
  | done used out err =>
    simp only [stepThread, Thread.atMissed, Thread.lookupMisses, Thread.held]
    exact ⟨by simp, le_refl _, hid, hcid⟩

lemma spawn_countInv (tmpl : String) (σ : State Body)
    (hmiss : σ.memoizedGetTemplate tmpl = none) (datas : List Data) :
    CountInv tmpl σ.parseCalls 0 (spawn σ tmpl datas : Config Body Data Err) where
  count := by
    have : ∀ l : List Data,
        ((l.map fun d => (((tmpl, d), Thread.start) : (String × Data) × Thread Body Err)).map
          fun x => x.2.atMissed).sum = 0 := by
      intro l
      induction l with
      | nil => rfl
      | cons d l ih =>
        rw [List.map_cons, List.map_cons, List.sum_cons, ih]
        rfl
    simp only [spawn, this]
  mono := le_refl _
  ids := by
    intro x hx t ht
    simp only [spawn, List.mem_map] at hx
    obtain ⟨d, -, rfl⟩ := hx
    simp [Thread.held] at ht
  entryId := by
    intro t ht
    simp only [spawn] at ht
    rw [hmiss] at ht
    cases ht

lemma stepConfig_countInv (E : Engine Body Data Err) (g : Globals) (tmpl : String) (b : Body)
    (hp : E.parse tmpl = .ok b) (p0 n : Nat) (c : Config Body Data Err) (i : Nat)
    (hsource : ∀ x ∈ c.threads, x.1.1 = tmpl) (h : CountInv tmpl p0 n c) :
    CountInv tmpl p0 (n + earlyLookup c i) (stepConfig E g c i) := by
  cases hget : c.threads.get? i with
  | none =>
    have h1 : stepConfig E g c i = c := by unfold stepConfig; rw [hget]
    have h2 : earlyLookup c i = 0 := by unfold earlyLookup; rw [hget]
    rw [h1, h2]
    exact h
  | some x =>
    obtain ⟨⟨src, data⟩, th⟩ := x
    have hmem : ((src, data), th) ∈ c.threads := List.get?_mem hget
    have hsrc : src = tmpl := hsource _ hmem
    subst hsrc
    have hstep : stepConfig E g c i =
        { state := (stepThread E g c.state src data th).2,
          threads := c.threads.set i ((src, data), (stepThread E g c.state src data th).1) } := by
      unfold stepConfig; rw [hget]
    have hearly : earlyLookup c i = th.lookupMisses c.state src := by
      unfold earlyLookup; rw [hget]
    rw [hstep, hearly]
    obtain ⟨s1, s2, s3, s4⟩ :=
      stepThread_count E g src b hp c.state data th p0 h.mono (h.ids _ hmem) h.entryId
    have hsum := sum_map_set (fun x : (String × Data) × Thread Body Err => x.2.atMissed)
      c.threads i ((src, data), th) ((src, data), (stepThread E g c.state src data th).1) hget
    have hc := h.count
    simp only at hsum
    refine ⟨?_, le_trans h.mono s2, ?_, s4⟩
    · simp only
      omega
    · intro x hx t ht
      rcases List.mem_or_eq_of_mem_set hx with hx | rfl
      · have := h.ids x hx t ht
        simp only
        omega
      · exact s3 t ht

lemma runSchedule_countInv (E : Engine Body Data Err) (g : Globals) (tmpl : String) (b : Body)
    (hp : E.parse tmpl = .ok b) (p0 K : Nat) (args : List (String × Data))
    (schedule : List Nat) (n : Nat) (c : Config Body Data Err)
    (hinv : Inv E g tmpl b p0 K args c) (h : CountInv tmpl p0 n c) :
    CountInv tmpl p0 (n + earlyLookups E g c schedule) (runSchedule E g c schedule) := by
  induction schedule generalizing c n with
  | nil => exact h
  | cons i rest ih =>
    have := ih (n + earlyLookup c i) (stepConfig E g c i)
      (stepConfig_inv E g tmpl b hp p0 K args c i hinv)
      (stepConfig_countInv E g tmpl b hp p0 n c i hinv.source h)
    have e : n + earlyLookups E g c (i :: rest) =
        n + earlyLookup c i + earlyLookups E g (stepConfig E g c i) rest := by
      simp only [earlyLookups]
      omega
    rw [e]
    exact this

lemma sum_map_le {α : Type} (f h : α → Nat) (hle : ∀ x, f x ≤ h x) (l : List α) :
    (l.map f).sum ≤ (l.map h).sum := by
  induction l with
  | nil => exact le_refl _
  | cons a l ih =>
    have := hle a
    simp only [List.map_cons, List.sum_cons]
    omega

lemma sum_map_zero {α : Type} (f : α → Nat) (l : List α) (h0 : ∀ x ∈ l, f x = 0) :
    (l.map f).sum = 0 := by
  induction l with
  | nil => rfl
  | cons a l ih =>
    have h1 := h0 a (List.mem_cons_self a l)
    have h2 := ih fun x hx => h0 x (List.mem_cons_of_mem a hx)
    simp only [List.map_cons, List.sum_cons]
    omega

/-! ## The claim on concurrent callers -/

/-- C8, as the code has it: for one or more concurrent callers of
`RunTemplate` with the same source, which the parser accepts and the map does
not hold, and for every interleaving of their steps.  The parser is called
exactly once for each caller that looked the source up before any template
was stored: at every moment the parser calls made plus the callers that have
missed and not yet parsed equal the number of such lookups, which is at most
the number of callers, and once all have returned the parser calls equal that
number, which is then at least one.  Every template a caller holds is a
compile result of the source, allocated by a parser call of this run; a
caller that has returned executed such a template and returned what the
uncached pipeline returns for its data; once all have returned the map holds
a compile result of the source.  And whenever the parser has been called
exactly once, all callers hold one and the same template object. -/
theorem concurrent_compilations_bounded (E : Engine Body Data Err) (g : Globals)
    (σ : State Body) (tmpl : String) (b : Body) (hvalid : E.parse tmpl = .ok b)
    (hmiss : σ.memoizedGetTemplate tmpl = none) (d : Data) (datas : List Data)
    (schedule : List Nat) :
    (runSchedule E g (spawn σ tmpl (d :: datas)) schedule).state.parseCalls
      ≤ σ.parseCalls + (d :: datas).length ∧
    (runSchedule E g (spawn σ tmpl (d :: datas)) schedule).threads.map Prod.fst
      = (d :: datas).map (fun x => (tmpl, x)) ∧
    (∀ x ∈ (runSchedule E g (spawn σ tmpl (d :: datas)) schedule).threads,
      ∀ t, x.2 = .parsed t ∨ x.2 = .fetched t → t.body = b) ∧
    (∀ x ∈ (runSchedule E g (spawn σ tmpl (d :: datas)) schedule).threads,
      ∀ used out err, x.2 = .done used out err →
        (∃ t, used = some t ∧ t.body = b) ∧ (out, err) = renderUncached E g tmpl x.1.2) ∧
    ((∀ x ∈ (runSchedule E g (spawn σ tmpl (d :: datas)) schedule).threads,
        x.2.isDone = true) →
      σ.parseCalls + 1 ≤ (runSchedule E g (spawn σ tmpl (d :: datas)) schedule).state.parseCalls ∧
      ∃ t, (runSchedule E g (spawn σ tmpl (d :: datas)) schedule).state.memoizedGetTemplate tmpl
        = some t ∧ t.body = b) ∧
    (runSchedule E g (spawn σ tmpl (d :: datas)) schedule).state.parseCalls +
        ((runSchedule E g (spawn σ tmpl (d :: datas)) schedule).threads.map
          fun x => x.2.atMissed).sum
      = σ.parseCalls + earlyLookups E g (spawn σ tmpl (d :: datas)) schedule ∧
    earlyLookups E g (spawn σ tmpl (d :: datas) : Config Body Data Err) schedule
      ≤ (d :: datas).length ∧
    ((∀ x ∈ (runSchedule E g (spawn σ tmpl (d :: datas)) schedule).threads,
        x.2.isDone = true) →
      (runSchedule E g (spawn σ tmpl (d :: datas)) schedule).state.parseCalls
        = σ.parseCalls + earlyLookups E g (spawn σ tmpl (d :: datas)) schedule ∧
      1 ≤ earlyLookups E g (spawn σ tmpl (d :: datas) : Config Body Data Err) schedule) ∧
    (∀ x ∈ (runSchedule E g (spawn σ tmpl (d :: datas)) schedule).threads,
      ∀ t, x.2.held = some t → σ.parseCalls ≤ t.id ∧
        t.id < (runSchedule E g (spawn σ tmpl (d :: datas)) schedule).state.parseCalls) ∧
    ((runSchedule E g (spawn σ tmpl (d :: datas)) schedule).state.parseCalls
        = σ.parseCalls + 1 →
      ∀ x ∈ (runSchedule E g (spawn σ tmpl (d :: datas)) schedule).threads,
        ∀ t, x.2.held = some t → t = { id := σ.parseCalls, body := b }) := by
  have inv := runSchedule_inv E g tmpl b hvalid σ.parseCalls (d :: datas).length
    ((d :: datas).map fun x => (tmpl, x)) schedule _
    (spawn_inv E g tmpl b σ hmiss (d :: datas))
  have cnt := runSchedule_countInv E g tmpl b hvalid σ.parseCalls (d :: datas).length
    ((d :: datas).map fun x => (tmpl, x)) schedule 0 _
    (spawn_inv E g tmpl b σ hmiss (d :: datas)) (spawn_countInv tmpl σ hmiss (d :: datas))
  rw [Nat.zero_add] at cnt
  have hdoneAll : (∀ x ∈ (runSchedule E g (spawn σ tmpl (d :: datas)) schedule).threads,
        x.2.isDone = true) →
      σ.parseCalls + 1 ≤ (runSchedule E g (spawn σ tmpl (d :: datas)) schedule).state.parseCalls ∧
      ∃ t, (runSchedule E g (spawn σ tmpl (d :: datas)) schedule).state.memoizedGetTemplate tmpl
        = some t ∧ t.body = b := by
    intro hall
    have hlen : (runSchedule E g (spawn σ tmpl (d :: datas)) schedule).threads ≠ [] := by
      intro hnil
      have := inv.args_eq
      rw [hnil] at this
      simp at this
    obtain ⟨x, hx⟩ := List.exists_mem_of_ne_nil _ hlen
    have hxdone := hall x hx
    obtain ⟨used, out, err, hx2⟩ : ∃ used out err, x.2 = Thread.done used out err := by
      cases hx2 : x.2 with
      | done used out err => exact ⟨used, out, err, rfl⟩
      | _ => simp [hx2, Thread.isDone] at hxdone
    have hnp : x.2.pending = 0 := by rw [hx2]; rfl
    have hnw : x.2.waiting = false := by rw [hx2]; rfl
    refine ⟨?_, ?_⟩
    · rcases inv.progress with ⟨-, hpend⟩ | hge
      · have := hpend x hx
        omega
      · exact hge
    · rcases inv.stored with hw | ⟨t, ht⟩
      · have := hw x hx
        rw [hnw] at this
        cases this
      · exact ⟨t, ht, inv.entry t ht⟩
  have hle : ((runSchedule E g (spawn σ tmpl (d :: datas)) schedule).threads.map
        fun x => x.2.atMissed).sum ≤
      ((runSchedule E g (spawn σ tmpl (d :: datas)) schedule).threads.map
        fun x => x.2.pending).sum := by
    apply sum_map_le
    intro x
    cases x.2 <;> simp [Thread.atMissed, Thread.pending]
  have hbody : ∀ x ∈ (runSchedule E g (spawn σ tmpl (d :: datas)) schedule).threads,
      ∀ t, x.2.held = some t → t.body = b := by
    intro x hx t ht
    have hok := inv.ok x hx
    cases hx2 : x.2 with
    | start => rw [hx2] at ht; simp [Thread.held] at ht
    | missed => rw [hx2] at ht; simp [Thread.held] at ht
    | parsed t0 =>
      rw [hx2] at ht hok
      simp only [Thread.held, Option.some.injEq] at ht
      subst ht
      exact hok
    | fetched t0 =>
      rw [hx2] at ht hok
      simp only [Thread.held, Option.some.injEq] at ht
      subst ht
      exact hok
    | done used out err =>
      rw [hx2] at ht hok
      simp only [Thread.held] at ht
      obtain ⟨⟨t1, h1, h2⟩, -⟩ := hok
      rw [ht] at h1
      simp only [Option.some.injEq] at h1
      subst h1
      exact h2
  refine ⟨?_, inv.args_eq, ?_, ?_, hdoneAll, cnt.count, ?_, ?_, cnt.ids, ?_⟩
  · have := inv.budget
    omega
  · intro x hx t ht
    have hok := inv.ok x hx
    rcases ht with ht | ht <;>
    · rw [ht] at hok
      exact hok
  · intro x hx used out err hdone
    have hok := inv.ok x hx
    rw [hdone] at hok
    refine ⟨hok.1, ?_⟩
    rw [hok.2]
    simp [renderUncached, hvalid]
  · have h1 := inv.budget
    have h2 := cnt.count
    omega
  · intro hall
    have hzero : ((runSchedule E g (spawn σ tmpl (d :: datas)) schedule).threads.map
        fun x => x.2.atMissed).sum = 0 := by
      apply sum_map_zero
      intro x hx
      have hxdone := hall x hx
      cases hx2 : x.2 <;> simp [hx2, Thread.isDone, Thread.atMissed] at hxdone ⊢
    have h2 := cnt.count
    have h3 := (hdoneAll hall).1
    omega
  · intro hone x hx t ht
    have hb := hbody x hx t ht
    have hi := cnt.ids x hx t ht
    rw [hone] at hi
    cases t with
    | mk tid tbody =>
      simp only at hb hi
      subst hb
      have : tid = σ.parseCalls := by omega
      rw [this]

/-! ## Evaluations at concrete inputs -/

theorem getTemplate_memoized_witness :
    getTemplate demoEngine emptyState "hi " =
      (.ok ⟨0, "hi "⟩, (getTemplate demoEngine emptyState "hi ").2) ∧
    getTemplate demoEngine
        (runCalls demoEngine initGlobals (getTemplate demoEngine emptyState "hi ").2
          [.get "yo ", .run "\x7b\x7b" "bob"]) "hi " =
      (.ok ⟨0, "hi "⟩,
        runCalls demoEngine initGlobals (getTemplate demoEngine emptyState "hi ").2
          [.get "yo ", .run "\x7b\x7b" "bob"]) ∧
    (runCalls demoEngine initGlobals emptyState
      (["ann", "bob", "cy"].map (Call.run "hi "))).parseCalls = 0 + 1 :=
  have h := getTemplate_memoized demoEngine initGlobals emptyState
    (getTemplate demoEngine emptyState "hi ").2 "hi " ⟨0, "hi "⟩ rfl
    [.get "yo ", .run "\x7b\x7b" "bob"] "ann" ["bob", "cy"]
  ⟨rfl, h.1, h.2 rfl⟩

theorem getTemplate_failure_not_cached_witness :
    demoEngine.parse "\x7b\x7b" = .error "unclosed action" ∧
    (emptyState : State String).memoizedGetTemplate "\x7b\x7b" = none ∧
    (getTemplate demoEngine emptyState "\x7b\x7b").1 = .error "unclosed action" ∧
    (getTemplate demoEngine emptyState "\x7b\x7b").2.memoizedGetTemplate =
      (emptyState : State String).memoizedGetTemplate ∧
    (getTemplate demoEngine emptyState "\x7b\x7b").2.parseCalls = 0 + 1 :=
  have h := getTemplate_failure_not_cached demoEngine initGlobals emptyState "\x7b\x7b"
    "unclosed action" rfl rfl [Call.run "hi " "bob"]
  ⟨rfl, rfl, h.1, h.2.1, h.2.2.1⟩

theorem RunTemplate_refines_uncached_witness :
    EntriesCompiled demoEngine (getTemplate demoEngine emptyState "hi ").2 ∧
    (RunTemplate demoEngine initGlobals (getTemplate demoEngine emptyState "hi ").2
      "hi " "bob").1 = renderUncached demoEngine initGlobals "hi " "bob" ∧
    (RunTemplate demoEngine initGlobals (getTemplate demoEngine emptyState "hi ").2
      ".Missing" "bob").1 = renderUncached demoEngine initGlobals ".Missing" "bob" :=
  have hc : EntriesCompiled demoEngine (getTemplate demoEngine emptyState "hi ").2 :=
    getTemplate_compiled demoEngine emptyState "hi " (by intro k t hk; simp [emptyState] at hk)
  ⟨hc,
    (RunTemplate_refines_uncached demoEngine initGlobals _ "hi " "bob" hc []).1,
    (RunTemplate_refines_uncached demoEngine initGlobals _ ".Missing" "bob" hc []).1⟩

/-- C5, as the claim states it, fails: a render of a source that is not yet in
the map stores its template, so the map after the call differs from the map
before it. -/
theorem RunTemplate_mutates_cache :
    (RunTemplate demoEngine initGlobals emptyState "hi " "bob").2.memoizedGetTemplate
      ≠ (emptyState : State String).memoizedGetTemplate := by
  intro h
  have h2 := congrFun h "hi "
  revert h2
  decide

theorem cache_entries_permanent_witness :
    (getTemplate demoEngine emptyState "hi ").2.memoizedGetTemplate "hi " = some ⟨0, "hi "⟩ ∧
    (runCalls demoEngine initGlobals (getTemplate demoEngine emptyState "hi ").2
      [.run "hi " "bob", .get "\x7b\x7b", .get "yo "]).memoizedGetTemplate "hi "
      = some ⟨0, "hi "⟩ :=
  ⟨rfl, (cache_entries_permanent demoEngine initGlobals
    (getTemplate demoEngine emptyState "hi ").2 "hi " ⟨0, "hi "⟩ rfl
    [.run "hi " "bob", .get "\x7b\x7b", .get "yo "] [] []).1⟩

theorem cache_isolation_witness :
    "hi " ≠ "hi" ∧
    (getTemplate demoEngine (runCalls demoEngine initGlobals emptyState [Call.run "hi" "bob"])
      "hi ").2.memoizedGetTemplate "hi" =
    (runCalls demoEngine initGlobals emptyState [Call.run "hi" "bob"]).memoizedGetTemplate
      "hi" :=
  ⟨by decide,
    (cache_isolation demoEngine initGlobals [Call.run "hi" "bob"] "hi " "hi" (by decide)).2.1⟩

/-- C8, as the claim states it, fails: when two callers both look the source
up before either has stored its template, both parse it; the parser runs
twice and the two renders execute two different template objects. -/
theorem concurrent_callers_compile_twice :
    (runSchedule demoEngine initGlobals (spawn emptyState "hi " ["ann", "bob"])
      [0, 1, 0, 1, 0, 1, 0, 1]).state.parseCalls = 2 ∧
    (runSchedule demoEngine initGlobals (spawn emptyState "hi " ["ann", "bob"])
      [0, 1, 0, 1, 0, 1, 0, 1]).threads =
      [(("hi ", "ann"), .done (some ⟨0, "hi "⟩) "hi ann" none),
       (("hi ", "bob"), .done (some ⟨1, "hi "⟩) "hi bob" none)] := by
  decide

theorem concurrent_compilations_bounded_witness :
    demoEngine.parse "hi " = .ok "hi " ∧
    (emptyState : State String).memoizedGetTemplate "hi " = none ∧
    earlyLookups demoEngine initGlobals (spawn emptyState "hi " ["ann", "bob"])
      [0, 1, 0, 1, 0, 1, 0, 1] = 2 ∧
    earlyLookups demoEngine initGlobals (spawn emptyState "hi " ["ann", "bob"])
      [0, 0, 0, 1, 1, 0, 1] = 1 ∧
    (runSchedule demoEngine initGlobals (spawn emptyState "hi " ["ann", "bob"])
      [0, 1, 0, 1, 0, 1, 0, 1]).state.parseCalls
      = 0 + earlyLookups demoEngine initGlobals (spawn emptyState "hi " ["ann", "bob"])
          [0, 1, 0, 1, 0, 1, 0, 1] ∧
    (runSchedule demoEngine initGlobals (spawn emptyState "hi " ["ann", "bob"])
      [0, 0, 0, 1, 1, 0, 1]).state.parseCalls
      = 0 + earlyLookups demoEngine initGlobals (spawn emptyState "hi " ["ann", "bob"])
          [0, 0, 0, 1, 1, 0, 1] :=
  ⟨rfl, rfl, by decide, by decide,
    ((concurrent_compilations_bounded demoEngine initGlobals emptyState "hi " "hi "
      rfl rfl "ann" ["bob"] [0, 1, 0, 1, 0, 1, 0, 1]).2.2.2.2.2.2.2.1 (by decide)).1,
    ((concurrent_compilations_bounded demoEngine initGlobals emptyState "hi " "hi "
      rfl rfl "ann" ["bob"] [0, 0, 0, 1, 1, 0, 1]).2.2.2.2.2.2.2.1 (by decide)).1⟩

theorem RunTemplate_error_iff_witness :
    demoEngine.exec initGlobals ".Missing" "bob" = ("partial", some "no such field") ∧
    (RunTemplate demoEngine initGlobals emptyState ".Missing" "bob").1
      = ("", some "no such field") ∧
    (RunTemplate demoEngine initGlobals emptyState "\x7b\x7b" "bob").1
      = ("", some "unclosed action") ∧
    (RunTemplate demoEngine initGlobals emptyState "hi " "bob").1 = ("hi bob", none) :=
  ⟨rfl,
    (RunTemplate_error_iff demoEngine initGlobals emptyState ".Missing" "bob" []).2.2.1
      ⟨0, ".Missing"⟩ "no such field" rfl rfl,
    (RunTemplate_error_iff demoEngine initGlobals emptyState "\x7b\x7b" "bob" []).2.1
      "unclosed action" rfl,
    (RunTemplate_error_iff demoEngine initGlobals emptyState "hi " "bob" []).2.2.2.1
      ⟨0, "hi "⟩ rfl rfl⟩

theorem RunTemplate_cache_effect_witness :
    (RunTemplate demoEngine initGlobals emptyState "hi " "bob").2.memoizedGetTemplate =
      Function.update (emptyState : State String).memoizedGetTemplate "hi "
        (some ⟨0, "hi "⟩) ∧
    (RunTemplate demoEngine initGlobals emptyState "\x7b\x7b" "bob").2.memoizedGetTemplate =
      (emptyState : State String).memoizedGetTemplate :=
  ⟨((RunTemplate_cache_effect demoEngine initGlobals emptyState "hi " "bob").2.2.2.2
      "hi " rfl rfl).1,
    (RunTemplate_cache_effect demoEngine initGlobals emptyState "\x7b\x7b" "bob").2.2.2.1
      "unclosed action" rfl⟩

theorem color_helper_permissive_witness :
    callHelper (fun c => "<" ++ c ++ ">") { initGlobals with DisableColor := true }
      "color" ["no such color"] = some "" ∧
    callHelper (fun c => "<" ++ c ++ ">") initGlobals "color" ["red"] = some "<red>" :=
  ⟨(color_helper_permissive (fun c => "<" ++ c ++ ">")
      { initGlobals with DisableColor := true } initGlobals "no such color").2.2.2 rfl,
    (color_helper_permissive (fun c => "<" ++ c ++ ">") initGlobals initGlobals "red").2.1⟩

theorem SetFancyIcons_keeps_QuestionIcon_witness :
    callHelper (fun c => c) (SetFancyIcons initGlobals) "QuestionIcon" [] = some "?" ∧
    (SetFancyIcons initGlobals).ErrorIcon = { Symbol := "✘", Color := "red" } :=
  ⟨((SetFancyIcons_keeps_QuestionIcon (fun c => c) initGlobals).2.2.2.2.2.2.1).trans
      (SetFancyIcons_keeps_QuestionIcon (fun c => c) initGlobals).2.2.2.2.2.2.2,
    rfl⟩

end Core
